import Mathlib

/-!
Shallow embedding of the Timex task-manager extension's Item Index Engine
(`src/model.ts`, `src/utils.ts`, `src/extension.ts`).

Conventions of the embedding:

* A JavaScript `Date` is modelled by `JSDate`: a civil day number (days since
  1970-01-01, negative before) together with a millisecond offset into that
  day.  The spec fixes the time model to local wall-clock with no timezone
  conversion, so `getTime` is the linear value `day * 86400000 + ofs` and
  adding days is exact.  Every constructor in this file produces a canonical
  representation with `0 ≤ ofs < 86400000`; theorems that quantify over
  arbitrary dates carry that bound as an explicit hypothesis (`JSDate.WF`).
* File-system reads are passed in as explicit functions
  (`read : String → Option String`, `none` = read failure), matching the
  source's try/catch around `fs.readFileSync`.
* `new Date(string)` (the host's date parser) is modelled by
  `jsParseDateString`, following the validation behaviour pinned down by the
  repository's own unit tests (`src/test/unit/utils.test.ts`): the
  month/day/year fields must be decimal numbers forming a real calendar date
  (leap years respected) and the 12-hour time fields must be in range.
-/

/-- Milliseconds per civil day. -/
def msPerDay : Int := 86400000

/-- Model of a JavaScript `Date` value: civil day number since 1970-01-01
plus millisecond offset into the day (local wall-clock, no DST). -/
structure JSDate where
  day : Int
  ofs : Int
deriving DecidableEq, Repr

/-- `Date.prototype.getTime`, the linear instant used by every comparison
and by the sort comparator in the source. -/
def JSDate.getTime (d : JSDate) : Int := d.day * msPerDay + d.ofs

/-- Canonical representation predicate: the millisecond offset lies inside
one day.  All dates built by the code satisfy it. -/
def JSDate.WF (d : JSDate) : Prop := 0 ≤ d.ofs ∧ d.ofs < msPerDay

instance (d : JSDate) : Decidable d.WF := by unfold JSDate.WF; infer_instance

/-- Gregorian leap-year rule. -/
def isLeapYear (y : Int) : Bool := (y % 4 == 0 && y % 100 != 0) || y % 400 == 0

/-- Length of a month in the Gregorian calendar. -/
def daysInMonth (y : Int) (m : Nat) : Nat :=
  if m == 2 then (if isLeapYear y then 29 else 28)
  else if m == 4 || m == 6 || m == 9 || m == 11 then 30
  else 31

/-- Civil day number (days since 1970-01-01) of a Gregorian date,
Hinnant's days-from-civil algorithm.  `Int` division floors here since the
divisors are positive. -/
def daysFromCivil (y m d : Int) : Int :=
  let yAdj := y - (if m ≤ 2 then 1 else 0)
  let era := yAdj / 400
  let yoe := yAdj - era * 400
  let mp := m + (if 2 < m then -3 else 9)
  let doy := (153 * mp + 2) / 5 + d - 1
  let doe := yoe * 365 + yoe / 4 - yoe / 100 + doy
  era * 146097 + doe - 719468

/-- Gregorian year of a civil day number (inverse direction of
`daysFromCivil`, Hinnant's civil-from-days algorithm restricted to the
year component, which is all `getFullYear` needs). -/
def civilYearFromDays (z0 : Int) : Int :=
  let z := z0 + 719468
  let era := z / 146097
  let doe := z - era * 146097
  let yoe := (doe - doe / 1460 + doe / 36524 - doe / 146096) / 365
  let y := yoe + era * 400
  let doy := doe - (365 * yoe + yoe / 4 - yoe / 100)
  let mp := (5 * doy + 2) / 153
  let m := mp + (if mp < 10 then 3 else -9)
  y + (if m ≤ 2 then 1 else 0)

/-- `Date.prototype.getFullYear` on a canonical `JSDate`. -/
def JSDate.getFullYear (d : JSDate) : Int := civilYearFromDays d.day

/-- `new Date(year, monthIndex, day, hours, minutes, seconds)` with the
0-based month index JavaScript uses. -/
def mkLocalDate (y monthIndex d h mi s : Int) : JSDate :=
  { day := daysFromCivil y (monthIndex + 1) d
    ofs := h * 3600000 + mi * 60000 + s * 1000 }

/-- The sentinel far-future instant `new Date(2050, 0, 1, 12, 0, 0)`
(model.ts lines 1336/1339). -/
def sentinelDate : JSDate := mkLocalDate 2050 0 1 12 0 0

/-- Boolean comparison `a < b` on `Date` objects (JavaScript coerces the
operands through `valueOf`, i.e. `getTime`). -/
def jsDateLt (a b : JSDate) : Bool := decide (a.getTime < b.getTime)

/-- Boolean comparison `a <= b` on `Date` objects. -/
def jsDateLe (a b : JSDate) : Bool := decide (a.getTime ≤ b.getTime)

/-- Split a character list at every occurrence of a separator character,
keeping empty segments.  This is `String.split` with a one-character
separator (the only kind the source uses: `' '`, `'/'`, `':'`), spelled out
on `List Char` so proofs can evaluate it. -/
def splitOnChar (sep : Char) (l : List Char) : List (List Char) :=
  match l with
  | [] => [[]]
  | c :: rest =>
    if c == sep then [] :: splitOnChar sep rest
    else match splitOnChar sep rest with
      | [] => [[c]]
      | x :: xs => (c :: x) :: xs

/-- Numeric value of a decimal digit character. -/
def digitVal (c : Char) : Nat := c.toNat - 48

/-- Accumulator loop for `toNatDigits`. -/
def toNatDigitsGo : List Char → Nat → Option Nat
  | [], acc => some acc
  | c :: rest, acc => if c.isDigit then toNatDigitsGo rest (acc * 10 + digitVal c) else none

/-- Parse a nonempty all-decimal-digit character list as a natural number
(the host's reading of a numeric date field); anything else fails. -/
def toNatDigits : List Char → Option Nat
  | [] => none
  | l => toNatDigitsGo l 0

/-- Remove every `[` and `]` character: `s.replace(/[\[\]]/g, '')`. -/
def removeBrackets (l : List Char) : List Char :=
  l.filter (fun c => !(c == '[') && !(c == ']'))

/-- Parse an `HH:MM:SS` 12-hour-clock time field the way the host date
parser does: three decimal components, hour 1–12, minutes and seconds
0–59. -/
def parseTimeParts (timeS : List Char) : Option (Nat × Nat × Nat) :=
  match splitOnChar ':' timeS with
  | [hS, mS, sS] => do
    let h ← toNatDigits hS
    let m ← toNatDigits mS
    let s ← toNatDigits sS
    if 1 ≤ h && h ≤ 12 && m ≤ 59 && s ≤ 59 then some (h, m, s) else none
  | _ => none

/-- Model of the host `new Date("MM/DD/YYYY HH:MM:SS AP")` parse used by
`parseTimestamp`: decimal fields, month 1–12, day valid for the month and
year (leap years respected), 12 AM mapped to hour 0 and 12 PM to hour 12.
This is the behaviour the repository's unit tests assert. -/
def jsParseDateString (monthS dayS yearS timeS ampmS : List Char) : Option JSDate := do
  let month ← toNatDigits monthS
  let day ← toNatDigits dayS
  let year ← toNatDigits yearS
  let (h, mi, s) ← parseTimeParts timeS
  if !(ampmS == "AM".data || ampmS == "PM".data) then none
  else if !(1 ≤ month && month ≤ 12) then none
  else if !(1 ≤ day && day ≤ daysInMonth (Int.ofNat year) month) then none
  else
    let hour24 : Int :=
      if ampmS == "PM".data then (if h == 12 then 12 else (h : Int) + 12)
      else (if h == 12 then 0 else (h : Int))
    some { day := daysFromCivil year month day
           ofs := hour24 * 3600000 + (mi : Int) * 60000 + (s : Int) * 1000 }

/-- `parseTimestamp` (utils.ts lines 39–67 = model.ts lines 1373–1401):
strip brackets, split on spaces, default a missing time-of-day to
`12:00:00 PM`, require three slash-separated date components with a
4-digit year, then hand the fields to the host date parser. -/
def parseTimestamp (timestampString : String) : Option JSDate :=
  let cleanTimestamp := removeBrackets timestampString.data
  let parts := splitOnChar ' ' cleanTimestamp
  let datePart := parts.headD []
  let timePart := if parts.length == 3 then parts.getD 1 [] else "12:00:00".data
  let ampmPart := if parts.length == 3 then parts.getD 2 [] else "PM".data
  let comps := splitOnChar '/' datePart
  if comps.length != 3 || (comps.getD 2 []).length != 4 then none
  else jsParseDateString (comps.getD 0 []) (comps.getD 1 []) (comps.getD 2 [])
    timePart ampmPart

/-- JavaScript `haystack.includes(needle)`: some contiguous run of
`haystack` equals `needle`. -/
def listContainsSub (hay pat : List Char) : Bool :=
  match hay with
  | [] => pat.isEmpty
  | _ :: rest => pat.isPrefixOf hay || listContainsSub rest pat

/-- `content.includes(sub)` on strings. -/
def strContains (content sub : String) : Bool :=
  listContainsSub content.data sub.data

/-- Whitespace test used for `trim` and `\s`.  JavaScript's class also
covers exotic Unicode spaces; document content here is ASCII text, for
which the two agree. -/
def isWsChar (c : Char) : Bool := c == ' ' || c == '\t' || c == '\r' || c == '\n'

/-- JavaScript `String.prototype.trim`. -/
def trimChars (l : List Char) : List Char :=
  ((l.dropWhile isWsChar).reverse.dropWhile isWsChar).reverse

/-- Loop for `collapseWs`: the flag records whether the previous kept
character came from a whitespace run. -/
def collapseWsGo : Bool → List Char → List Char
  | _, [] => []
  | prevWs, c :: rest =>
    if isWsChar c then
      if prevWs then collapseWsGo true rest else ' ' :: collapseWsGo true rest
    else c :: collapseWsGo false rest

/-- `s.replace(/\s+/g, ' ')`: every maximal whitespace run becomes a single
space. -/
def collapseWs (l : List Char) : List Char := collapseWsGo false l

/-- Matcher for the date-and-time tail of the timestamp regular expression
(model.ts line 1326): a space, `HH:MM:SS` with two digits per field, a
space, `AM` or `PM`, and the closing bracket. -/
def tsTimeTailMatches (l : List Char) : Bool :=
  match l with
  | ' ' :: h1 :: h2 :: ':' :: m1 :: m2 :: ':' :: s1 :: s2 :: ' ' :: x :: 'M' :: ']' :: _ =>
    h1.isDigit && h2.isDigit && m1.isDigit && m2.isDigit && s1.isDigit && s2.isDigit &&
      (x == 'A' || x == 'P')
  | _ => false

/-- Length of the timestamp-regex match starting at the head of `l`, if
any.  The pattern is
`\[[0-9]{2}\/[0-9]{2}\/20[0-9]{2}(?:\s[0-9]{2}:[0-9]{2}:[0-9]{2}\s(?:AM|PM))?\]`;
the greedy optional group is tried first (match length 24), then the
date-only form (match length 12). -/
def tsMatchLenAt (l : List Char) : Option Nat :=
  match l with
  | '[' :: a :: b :: '/' :: c :: d :: '/' :: '2' :: '0' :: e :: f :: rest =>
    if a.isDigit && b.isDigit && c.isDigit && d.isDigit && e.isDigit && f.isDigit then
      if tsTimeTailMatches rest then some 24
      else match rest with
        | ']' :: _ => some 12
        | _ => none
    else none
  | _ => none

/-- Leftmost timestamp-regex match in a character list
(`content.match(timestampRegex)` keeping `match[0]`). -/
def findTsAux : List Char → Option (List Char)
  | [] => none
  | l@(_ :: rest) =>
    match tsMatchLenAt l with
    | some n => some (l.take n)
    | none => findTsAux rest

/-- First bracketed timestamp token in the file content, as matched by the
scanner's regular expression (model.ts lines 1326–1327). -/
def findTimestamp (content : String) : Option String :=
  (findTsAux content.data).map String.mk

/-- Split file content into lines: `content.split(/\r?\n/)`.  A lone
carriage return is not a separator. -/
def splitLines : List Char → List (List Char)
  | [] => [[]]
  | '\r' :: '\n' :: rest => [] :: splitLines rest
  | '\n' :: rest => [] :: splitLines rest
  | c :: rest =>
    match splitLines rest with
    | [] => [[c]]
    | x :: xs => (c :: x) :: xs

/-- `path.basename`: the part of the path after the last `/`. -/
def basename (p : String) : String :=
  String.mk ((p.data.reverse.takeWhile (fun c => !(c == '/'))).reverse)

/-- `path.basename(filePath, '.md')`: basename with a trailing `.md`
removed, except when the whole basename is `.md` (Node keeps it then). -/
def basenameNoMd (p : String) : String :=
  let b := basename p
  if b == ".md" then b
  else if b.endsWith ".md" then String.mk (b.data.take (b.data.length - 3))
  else b

/-- Word-character test for the `\b` boundary in the hashtag-removal
regular expression (`\w` = ASCII letters, digits, underscore). -/
def isWordChar (c : Char) : Bool := c.isAlphanum || c == '_'

/-- Does the regex word boundary `\b` hold between a final character and
the rest of the input? -/
def boundaryAfter (lastC : Char) (rest : List Char) : Bool :=
  match rest with
  | [] => isWordChar lastC
  | c :: _ => isWordChar lastC != isWordChar c

/-- Try the alternatives of `#(tag|p[123]|done)\b` at a position just after
a `#`, in the regex's left-to-right order; returns how many characters the
matching alternative consumes. -/
def findTagAlt (alts : List (List Char)) (rest : List Char) : Option Nat :=
  match alts with
  | [] => none
  | alt :: more =>
    if alt.isPrefixOf rest && boundaryAfter (alt.getLastD '#') (rest.drop alt.length) then
      some alt.length
    else findTagAlt more rest

/-- Structural-fuel loop for the global replacement of the task-hashtag
pattern with the empty string:
`displayText.replace(new RegExp("#(" + primary + "|p[123]|done)\\b", 'g'), '')`
(model.ts lines 566–570).  After a match the scan resumes past it, as the
JavaScript global-replace does. -/
def removeTagTokensFuel (alts : List (List Char)) : Nat → List Char → List Char
  | 0, l => l
  | _ + 1, [] => []
  | fuel + 1, c :: rest =>
    if c == '#' then
      match findTagAlt alts rest with
      | some n => removeTagTokensFuel alts fuel (rest.drop n)
      | none => c :: removeTagTokensFuel alts fuel rest
    else c :: removeTagTokensFuel alts fuel rest

/-- Global replacement of the task-hashtag pattern with the empty string,
entered with fuel equal to the input length; every step consumes at least
one character, so the fuel never runs out. -/
def removeTagTokens (alts : List (List Char)) (l : List Char) : List Char :=
  removeTagTokensFuel alts l.length l

/-- Strip the leading `/^#+\s*/` marker run from a trimmed first line. -/
def stripLeadingHashes (l : List Char) : List Char :=
  match l with
  | '#' :: _ => (l.dropWhile (fun c => c == '#')).dropWhile isWsChar
  | _ => l

/-- The alternative list of the hashtag-removal pattern for a given primary
hashtag: the primary tag's body, `p1`, `p2`, `p3` (spelling out the
character class `p[123]`), and `done`. -/
def tagAlts (primaryHashtag : String) : List (List Char) :=
  [primaryHashtag.data.drop 1, ['p', '1'], ['p', '2'], ['p', '3'], ['d', 'o', 'n', 'e']]

/-- `getFileDisplayText` (model.ts lines 542–577).  The file read is passed
in as `readResult` (`none` models the try/catch read failure).  Derives the
one-line display label: from the cleaned filename when the only non-blank
line is a marker line, otherwise from the first non-blank line with marker
characters and tag tokens removed, whitespace collapsed, and a 50-character
truncation with an appended `...`. -/
def getFileDisplayText (primaryHashtag : String) (readResult : Option String)
    (filePath : String) : String :=
  match readResult with
  | none => "(unable to read file)"
  | some content =>
    let lines := splitLines content.data
    let nonEmptyLines := lines.filter (fun ln => (trimChars ln).length > 0)
    let firstTrim := trimChars (nonEmptyLines.headD [])
    if nonEmptyLines.length == 1 &&
        (firstTrim.headD ' ' == '#' || firstTrim.headD ' ' == '[') then
      let fileName := basenameNoMd filePath
      String.mk (fileName.data.dropWhile (fun c => c.isDigit || c == '_'))
    else
      match nonEmptyLines with
      | [] => "(blank file)"
      | firstNonBlank :: _ =>
        let t1 := stripLeadingHashes (trimChars firstNonBlank)
        let t2 := removeTagTokens (tagAlts primaryHashtag) t1
        let t3 := trimChars (collapseWs t2)
        if t3.length > 50 then String.mk (t3.take 50) ++ "..." else String.mk t3

/-- Test whether `pre` is a prefix of `s` (`String.prototype.startsWith`). -/
def strStartsWith (s pre : String) : Bool := pre.data.isPrefixOf s.data

/-- Test whether `suf` is a suffix of `s` (`String.prototype.endsWith`). -/
def strEndsWith (s suf : String) : Bool := suf.data.reverse.isPrefixOf s.data.reverse

/-- `String.prototype.toLowerCase` (ASCII, which is all the file names and
extensions here use). -/
def strToLower (s : String) : String := String.mk (s.data.map Char.toLower)

/-- Priority marker of an item: `#p1`, `#p2` or `#p3`; absence means `p1`. -/
inductive Priority where
  | p1
  | p2
  | p3
deriving DecidableEq, Repr

/-- The string value the source stores for a priority (its union type
`'p1' | 'p2' | 'p3'`). -/
def Priority.str : Priority → String
  | .p1 => "p1"
  | .p2 => "p2"
  | .p3 => "p3"

/-- Priority detection (model.ts lines 1344–1350, duplicated verbatim at
lines 676–681): `#p2` wins over `#p3`, default `p1`. -/
def detectPriority (content : String) : Priority :=
  if strContains content "#p2" then .p2
  else if strContains content "#p3" then .p3
  else .p1

/-- The completion filter's union type
`'all' | 'completed' | 'not-completed'`. -/
inductive CompletionFilter where
  | all
  | completed
  | notCompleted
deriving DecidableEq, Repr

/-- Configuration snapshot consumed by the classifier: the active primary
hashtag (or the `all-tags` wildcard), the configured candidate hashtags,
and the completion filter that `scanFile` consults for inclusion. -/
structure Config where
  primaryHashtag : String
  hashtags : List String
  completionFilter : CompletionFilter
deriving Repr

/-- `containsAnyConfiguredHashtag` / the primary-hashtag test of
`scanFile` (model.ts lines 1306–1310). -/
def hasActiveTag (cfg : Config) (content : String) : Bool :=
  if cfg.primaryHashtag == "all-tags" then
    cfg.hashtags.any (fun hashtag => strContains content hashtag)
  else strContains content cfg.primaryHashtag

/-- The `TaskFile` record (model.ts lines 470–480).  `fileUri` is carried
by `filePath`. -/
structure TaskFile where
  filePath : String
  fileName : String
  timestamp : JSDate
  timestampString : String
  priority : Priority
  isCompleted : Bool
deriving DecidableEq, Repr

/-- The body of `scanFile` after the duplicate-path guard (model.ts lines
1304–1367): classify the content under the active tag and completion
filter and, when the file qualifies, build its `TaskFile` with the first
regex-matched timestamp (sentinel when absent or unparsable). -/
def scanFileClassify (cfg : Config) (filePath content : String) : Option TaskFile :=
  let hasTaskHashtag := hasActiveTag cfg content
  let isDoneTask := strContains content "#done"
  let includeTask := hasTaskHashtag &&
    (match cfg.completionFilter with
     | .all => true
     | .completed => isDoneTask
     | .notCompleted => !isDoneTask)
  if includeTask then
    let timestampMatch := findTimestamp content
    let timestampString :=
      match timestampMatch with
      | some s => s
      | none => "[01/01/2050 12:00:00 PM]"
    let parsedTimestamp :=
      match timestampMatch with
      | some s => (parseTimestamp s).getD sentinelDate
      | none => sentinelDate
    some { filePath := filePath
           fileName := basename filePath
           timestamp := parsedTimestamp
           timestampString := timestampString
           priority := detectPriority content
           isCompleted := isDoneTask }
  else none

/-- The repeated source snippet
`(taskDay.getTime() - today.getTime()) / 86400000` where `taskDay` and
`today` are the two midnight dates; in the wall-clock model the division
is exact, so the source's `Math.round` is the identity here. -/
def civilDayDiff (now taskDate : JSDate) : Int :=
  ((⟨taskDate.day, (0 : Int)⟩ : JSDate).getTime - (⟨now.day, (0 : Int)⟩ : JSDate).getTime) /
    msPerDay

/-- `getDaysDifference` (model.ts lines 1436–1451 = utils.ts lines
183–194): `none` models the `'?'` marker returned for year ≥ 2050. -/
def getDaysDifference (now taskDate : JSDate) : Option Int :=
  if 2050 ≤ taskDate.getFullYear then none
  else some (civilDayDiff now taskDate)

/-- `isFarFuture` (model.ts lines 1453–1462): more than 365 calendar days
after today. -/
def isFarFuture (now taskDate : JSDate) : Bool :=
  decide (365 < civilDayDiff now taskDate)

/-- Sunday-based day of week (`Date.prototype.getDay`); day 0 of the epoch
was a Thursday. -/
def jsGetDay (d : JSDate) : Int := (d.day + 4) % 7

/-- Day names indexed by `getDay` (model.ts line 525). -/
def dayNames : List String :=
  ["Sunday", "Monday", "Tuesday", "Wednesday", "Thursday", "Friday", "Saturday"]

/-- Matcher for the `\([^)]*\)\s*` tail of the label-prefix pattern:
consume a parenthesised group and trailing whitespace, returning the
remainder. -/
def matchParenTail (l : List Char) : Option (List Char) :=
  match l with
  | '(' :: rest =>
    match rest.dropWhile (fun c => !(c == ')')) with
    | ')' :: r => some (r.dropWhile isWsChar)
    | _ => none
  | _ => none

/-- Matcher for `\s*(⚠️)?\s*\([^)]*\)\s*`: optional warning emoji between
whitespace runs, then the parenthesised group; the optional group is tried
present-first as the regex engine does. -/
def matchWarnParen (l : List Char) : Option (List Char) :=
  let l1 := l.dropWhile isWsChar
  (match l1 with
   | '⚠' :: '️' :: r => matchParenTail (r.dropWhile isWsChar)
   | _ => none) <|> matchParenTail l1

/-- Backtracking over the greedy `(\S)+` head of the label-prefix pattern:
try consuming `k` leading non-space characters, longest first. -/
def tryLeadLen : Nat → List Char → Option (List Char)
  | 0, _ => none
  | k + 1, l => matchWarnParen (l.drop (k + 1)) <|> tryLeadLen k l

/-- The label-cleaning replacement in `createTaskTooltip` (model.ts line
517): strip one leading run of icon characters, an optional warning emoji
and the parenthesised day count.  The emoji classes of the source pattern
all lie inside `\S`, so the head class is `\S`. -/
def stripLabelLead (l : List Char) : List Char :=
  match tryLeadLen (l.takeWhile (fun c => !(isWsChar c))).length l with
  | some rest => rest
  | none => l

/-- `createTaskTooltip` (model.ts lines 515–539), modelled as the markdown
text it appends: bracket-free timestamp, cleaned label, and the day of
week when the timestamp parses to a pre-2050 date. -/
def createTaskTooltip (label timestampString : String) : String :=
  let timestampLine := String.mk (removeBrackets timestampString.data)
  let cleaned := String.mk (trimChars (stripLabelLead label.data))
  let dayOfWeek :=
    match parseTimestamp timestampString with
    | some parsedDate =>
      if parsedDate.getFullYear < 2050 then dayNames.getD (jsGetDay parsedDate).toNat ""
      else ""
    | none => ""
  let codeContent :=
    if dayOfWeek != "" then timestampLine ++ " -- " ++ dayOfWeek else timestampLine
  "*\n**" ++ cleaned ++ "**\n\n`" ++ codeContent ++ "`"

/-- One rendered row of the tree view: the pieces of the display record a
claim can observe (label text, target path, tooltip markdown, context
value). -/
structure DisplayItem where
  label : String
  path : String
  tooltip : String
  contextValue : String
deriving DecidableEq, Repr

/-- The per-item rendering step shared verbatim by `scanForTaskFiles`
(model.ts lines 1201–1256), `rebuildTaskDisplay` (lines 779–834) and
`applyFiltersToExistingData` (lines 1038–1094): day count, overdue warning,
icon precedence completed → far-future → priority, label, tooltip and
context value.  `read` is the `getFileDisplayText` file read. -/
def renderItem (primaryHashtag : String) (read : String → Option String) (now : JSDate)
    (taskFile : TaskFile) : DisplayItem :=
  let daysDiff := getDaysDifference now taskFile.timestamp
  let daysStr := match daysDiff with | none => "?" | some n => toString n
  let isOverdue := jsDateLt taskFile.timestamp now
  let farFuture := isFarFuture now taskFile.timestamp
  let icon :=
    if taskFile.isCompleted then "✅"
    else if farFuture then "⚪"
    else match taskFile.priority with
      | .p2 => "🟠"
      | .p3 => "🔵"
      | .p1 => "🔴"
  let displayText := getFileDisplayText primaryHashtag (read taskFile.filePath) taskFile.filePath
  let label :=
    if isOverdue then icon ++ "⚠️ " ++ "(" ++ daysStr ++ ")" ++ " " ++ displayText
    else icon ++ " " ++ "(" ++ daysStr ++ ")" ++ " " ++ displayText
  let hasRealTimestamp := decide (taskFile.timestamp.getFullYear < 2050)
  let contextValue :=
    if farFuture && !hasRealTimestamp then "farFutureTask"
    else if hasRealTimestamp then "taskWithTimestamp"
    else "taskWithoutTimestamp"
  { label := label
    path := taskFile.filePath
    tooltip := createTaskTooltip label taskFile.timestampString
    contextValue := contextValue }

/-- `threeDaysFromNow` (model.ts lines 1174–1176): today plus three civil
days, clock set to `23:59:59.999`. -/
def threeDaysFromNow (now : JSDate) : JSDate := ⟨now.day + 3, 86399999⟩

/-- The Due Soon predicate filter (model.ts lines 1178–1180). -/
def filterDueSoon (now : JSDate) (data : List TaskFile) : List TaskFile :=
  data.filter (fun taskFile => jsDateLe taskFile.timestamp (threeDaysFromNow now))

/-- The Overdue predicate filter (model.ts lines 1183–1185). -/
def filterOverdue (now : JSDate) (data : List TaskFile) : List TaskFile :=
  data.filter (fun taskFile => jsDateLt taskFile.timestamp now)

/-- Temporal filtering as `scanForTaskFiles` dispatches it from its two
boolean parameters (model.ts lines 1172–1186). -/
def filterTemporalFlags (dueSoonOnly overdueOnly : Bool) (now : JSDate)
    (data : List TaskFile) : List TaskFile :=
  if dueSoonOnly then filterDueSoon now data
  else if overdueOnly then filterOverdue now data
  else data

/-- Temporal filtering as `rebuildTaskDisplay` dispatches it from the
`currentFilter` string (model.ts lines 750–764). -/
def filterTemporalName (currentFilter : String) (now : JSDate)
    (data : List TaskFile) : List TaskFile :=
  if currentFilter == "Due Soon" then filterDueSoon now data
  else if currentFilter == "Overdue" then filterOverdue now data
  else data

/-- The priority filter (model.ts lines 1189–1193): applied only when the
current priority filter is not `all`, comparing the stored priority string. -/
def filterPriority (currentPriorityFilter : String) (data : List TaskFile) : List TaskFile :=
  if currentPriorityFilter != "all" then
    data.filter (fun taskFile => taskFile.priority.str == currentPriorityFilter)
  else data

/-- The comparator `(a, b) => a.timestamp.getTime() - b.timestamp.getTime()`
(model.ts lines 1196–1198) as the ordering it induces. -/
def byTimeLe (a b : TaskFile) : Prop := a.timestamp.getTime ≤ b.timestamp.getTime

instance : DecidableRel byTimeLe := fun a b => by unfold byTimeLe; infer_instance

/-- The sort `filteredTaskData.sort((a, b) => a.timestamp.getTime() -
b.timestamp.getTime())` (model.ts lines 1196–1198): ascending by
`getTime` and stable, as ES2019 specifies `Array.prototype.sort`; a stable
insertion sort realises exactly that contract. -/
def sortByTimestamp (data : List TaskFile) : List TaskFile :=
  data.insertionSort byTimeLe

/-- The filter–sort–render tail of `scanForTaskFiles` (model.ts lines
1169–1256), taking the scanned item set as input. -/
def buildDisplayScan (cfg : Config) (currentPriorityFilter : String)
    (read : String → Option String) (dueSoonOnly overdueOnly : Bool) (now : JSDate)
    (data : List TaskFile) : List DisplayItem :=
  (sortByTimestamp
    (filterPriority currentPriorityFilter
      (filterTemporalFlags dueSoonOnly overdueOnly now data))).map
    (renderItem cfg.primaryHashtag read now)

/-- `rebuildTaskDisplay` (model.ts lines 745–838): the incremental
updater's re-filter/re-sort/re-render over the patched item set.  Note the
source applies no completion filter here. -/
def rebuildTaskDisplay (cfg : Config) (currentFilter currentPriorityFilter : String)
    (read : String → Option String) (now : JSDate) (data : List TaskFile) :
    List DisplayItem :=
  (sortByTimestamp
    (filterPriority currentPriorityFilter
      (filterTemporalName currentFilter now data))).map
    (renderItem cfg.primaryHashtag read now)

/-- The state-patching part of `updateSingleTask` (model.ts lines
656–695): find the task by path, parse the new timestamp string, re-read
the file for priority and completion, and replace the record in place.
`none` models every fall-back-to-full-refresh path (task not found, parse
failure, read failure). -/
def updateSingleTaskData (data : List TaskFile) (read : String → Option String)
    (filePath newTimestampString : String) : Option (List TaskFile) :=
  match data.findIdx? (fun task => task.filePath == filePath) with
  | none => none
  | some taskIndex =>
    match parseTimestamp newTimestampString with
    | none => none
    | some newTimestamp =>
      match read filePath with
      | none => none
      | some content =>
        match data.get? taskIndex with
        | none => none
        | some oldTask =>
          some (data.set taskIndex
            { filePath := oldTask.filePath
              fileName := oldTask.fileName
              timestamp := newTimestamp
              timestampString := newTimestampString
              priority := detectPriority content
              isCompleted := strContains content "#done" })

/-- `shouldSkipDirectory` (model.ts lines 1282–1285). -/
def shouldSkipDirectory (dirName : String) : Bool :=
  ["node_modules", ".git", ".vscode", "out", "dist", "build", ".next", "target"].contains
      dirName ||
    strStartsWith dirName "."

/-- `isTaskFile` (model.ts lines 1287–1294): never a file whose name
begins with an underscore or a period; otherwise the case-insensitive
`.md` extension decides. -/
def isTaskFile (fileName : String) : Bool :=
  let lowerFileName := strToLower fileName
  if strStartsWith fileName "_" || strStartsWith fileName "." then false
  else strEndsWith lowerFileName ".md"

/-- Abstract file tree handed to the Workspace Scanner: the directory
listing and file contents the `fs.promises` calls would return. -/
inductive FSNode where
  | file : String → String → FSNode
  | dir : String → List FSNode → FSNode
deriving Repr

mutual

/-- Size of a file-tree node, fuel measure for the scanner walk. -/
def fsSize : FSNode → Nat
  | .file _ _ => 1
  | .dir _ children => 1 + fsForestSize children

/-- Size of a forest of file-tree nodes. -/
def fsForestSize : List FSNode → Nat
  | [] => 0
  | node :: rest => 1 + fsSize node + fsForestSize rest

end

/-- Structural-fuel loop of the Workspace Scanner walk; the fuel bounds
the recursion depth and never runs out when it starts at `fsForestSize` of
the entry list (every recursive call passes a strictly smaller forest). -/
def scanEntriesFuel (cfg : Config) : Nat → String → List FSNode → List String →
    List TaskFile × List String
  | 0, _, _, seen => ([], seen)
  | _ + 1, _, [], seen => ([], seen)
  | fuel + 1, dirPath, FSNode.file name content :: rest, seen =>
    let fullPath := dirPath ++ "/" ++ name
    if isTaskFile name then
      if seen.contains fullPath then scanEntriesFuel cfg fuel dirPath rest seen
      else
        match scanFileClassify cfg fullPath content with
        | some taskFile =>
          let (found, seenOut) := scanEntriesFuel cfg fuel dirPath rest (fullPath :: seen)
          (taskFile :: found, seenOut)
        | none => scanEntriesFuel cfg fuel dirPath rest (fullPath :: seen)
    else scanEntriesFuel cfg fuel dirPath rest seen
  | fuel + 1, dirPath, FSNode.dir name children :: rest, seen =>
    if shouldSkipDirectory name then scanEntriesFuel cfg fuel dirPath rest seen
    else
      let (foundSub, seenSub) := scanEntriesFuel cfg fuel (dirPath ++ "/" ++ name) children seen
      let (foundRest, seenOut) := scanEntriesFuel cfg fuel dirPath rest seenSub
      (foundSub ++ foundRest, seenOut)

/-- The recursion of `scanDirectory` (model.ts lines 1263–1280) together
with the duplicate-path guard of `scanFile` (lines 1298–1302): walk the
entries in order, recursing into non-skipped directories and classifying
files that pass `isTaskFile`, threading the `scannedFiles` set as a path
list.  Returns the `TaskFile`s pushed, in push order, and the final set. -/
def scanEntries (cfg : Config) (dirPath : String) (entries : List FSNode)
    (seen : List String) : List TaskFile × List String :=
  scanEntriesFuel cfg (fsForestSize entries) dirPath entries seen

/-- The scanning phase of `scanForTaskFiles` (model.ts lines 1156–1166):
walk the workspace root's entries with an empty duplicate set and collect
the unfiltered item set. -/
def scanForTaskFilesData (cfg : Config) (rootPath : String)
    (rootEntries : List FSNode) : List TaskFile :=
  (scanEntries cfg rootPath rootEntries []).1

/-- The view-state fields of the provider that `clearFilters` touches
(model.ts lines 584–587): temporal filter name, priority filter,
completion filter, search query. -/
structure FilterState where
  currentFilter : String
  currentPriorityFilter : String
  completionFilter : CompletionFilter
  currentSearchQuery : String
deriving DecidableEq, Repr

/-- The field initializers of the provider (model.ts lines 584–587): note
the completion filter starts as `not-completed`. -/
def initialFilterState : FilterState :=
  { currentFilter := "All"
    currentPriorityFilter := "all"
    completionFilter := .notCompleted
    currentSearchQuery := "" }

/-- The state mutation of `clearFilters` (model.ts lines 919–932). -/
def clearFilters (_state : FilterState) : FilterState :=
  { currentFilter := "All"
    currentPriorityFilter := "all"
    completionFilter := .all
    currentSearchQuery := "" }

theorem ifChain3_eq_some {A : Type} (c1 c2 c3 : Bool) (v d : A)
    (h : (if c1 then none else if c2 then none else if c3 then none else some v) = some d) :
    c1 = false ∧ c2 = false ∧ c3 = false ∧ v = d := by
  cases c1 <;> cases c2 <;> cases c3 <;> simp_all

theorem jsParseDateString_valid (monthS dayS yearS timeS ampmS : List Char) (d : JSDate)
    (h : jsParseDateString monthS dayS yearS timeS ampmS = some d) :
    ∃ month day year : Nat, toNatDigits monthS = some month ∧ toNatDigits dayS = some day ∧
      toNatDigits yearS = some year ∧ 1 ≤ month ∧ month ≤ 12 ∧ 1 ≤ day ∧
      day ≤ daysInMonth (Int.ofNat year) month ∧ d.day = daysFromCivil year month day := by
  unfold jsParseDateString at h
  cases hm : toNatDigits monthS with
  | none => rw [hm] at h; simp at h
  | some month =>
  rw [hm] at h
  cases hd : toNatDigits dayS with
  | none => rw [hd] at h; simp at h
  | some day =>
  rw [hd] at h
  cases hy : toNatDigits yearS with
  | none => rw [hy] at h; simp at h
  | some year =>
  rw [hy] at h
  cases ht : parseTimeParts timeS with
  | none => rw [ht] at h; simp at h
  | some hms =>
  rw [ht] at h
  simp only [Option.some_bind] at h
  obtain ⟨hc1, hc2, hc3, hv⟩ := ifChain3_eq_some _ _ _ _ _ h
  simp only [Bool.not_eq_false', Bool.and_eq_true, decide_eq_true_eq] at hc2 hc3
  refine ⟨month, day, year, rfl, rfl, rfl, hc2.1, hc2.2, hc3.1, hc3.2, ?_⟩
  rw [← hv]

theorem parseTimestamp_valid (s : String) (d : JSDate) (h : parseTimestamp s = some d) :
    ∃ month day year : Nat, 1 ≤ month ∧ month ≤ 12 ∧ 1 ≤ day ∧
      day ≤ daysInMonth (Int.ofNat year) month ∧ d.day = daysFromCivil year month day := by
  unfold parseTimestamp at h
  simp only [] at h
  split_ifs at h
  all_goals
    obtain ⟨month, day, year, _, _, _, hrest⟩ := jsParseDateString_valid _ _ _ _ _ _ h
  all_goals exact ⟨month, day, year, hrest⟩

/-- C2: every success of the Timestamp Parser carries month/day fields
that form a real calendar date for the parsed year (so impossible
month/day combinations can only fail); in particular `[02/31/2025]` and
`[02/29/2023]` (February 29 outside a leap year) fail while `[02/29/2024]`
(a leap year) succeeds. -/
theorem c2_parser_rejects_impossible_dates :
    (∀ s d, parseTimestamp s = some d → ∃ month day year : Nat,
      1 ≤ month ∧ month ≤ 12 ∧ 1 ≤ day ∧ day ≤ daysInMonth (Int.ofNat year) month ∧
      d.day = daysFromCivil year month day) ∧
    parseTimestamp "[02/31/2025]" = none ∧
    parseTimestamp "[02/29/2023]" = none ∧
    parseTimestamp "[02/29/2024]" = some ⟨daysFromCivil 2024 2 29, 43200000⟩ :=
  ⟨parseTimestamp_valid, by decide, by decide, by decide⟩

/-- Witness for C2: the soundness component applied at the concrete
leap-year token. -/
theorem c2_parser_rejects_impossible_dates_witness :
    ∃ month day year : Nat, 1 ≤ month ∧ month ≤ 12 ∧ 1 ≤ day ∧
      day ≤ daysInMonth (Int.ofNat year) month ∧
      (⟨daysFromCivil 2024 2 29, 43200000⟩ : JSDate).day = daysFromCivil year month day :=
  c2_parser_rejects_impossible_dates.1 "[02/29/2024]"
    ⟨daysFromCivil 2024 2 29, 43200000⟩ (by decide)

/-- C5 counterexample: from the concrete prior selection
(Overdue, p2, completed, "xyz"), `clearFilters` yields completion filter
`all` (the "Any" state), not the claimed default `not-completed`. -/
theorem c5_clear_filters_counterexample :
    clearFilters ⟨"Overdue", "p2", CompletionFilter.completed, "xyz"⟩ =
      ⟨"All", "all", CompletionFilter.all, ""⟩ ∧
    CompletionFilter.all ≠ CompletionFilter.notCompleted := by
  exact ⟨rfl, by decide⟩

/-- C5 amended: clearing all filters resets the temporal mode to All, the
priority mode to Any and the search text to empty as claimed, but sets the
completion mode to Any (`all`), which differs from the provider's startup
default `not-completed`. -/
theorem c5_clear_filters_resets_to_all :
    ∀ state : FilterState,
      (clearFilters state).currentFilter = "All" ∧
      (clearFilters state).currentPriorityFilter = "all" ∧
      (clearFilters state).completionFilter = CompletionFilter.all ∧
      (clearFilters state).currentSearchQuery = "" ∧
      (clearFilters state).completionFilter ≠ initialFilterState.completionFilter :=
  fun _ => ⟨rfl, rfl, rfl, rfl, fun hEq => nomatch hEq⟩

/-- A first line of 60 characters followed by a second line, so the label
comes from the content path and must be truncated. -/
def c6LongContent : String := String.mk (List.replicate 60 'a') ++ "\nx"

/-- C6 counterexample: for a readable file whose extracted line has 60
characters, the derived label has 53 characters (50 plus the appended
`...`), violating the claimed 50-character bound. -/
theorem c6_label_50_counterexample :
    (getFileDisplayText "#task" (some c6LongContent) "/w/notes.md").length = 53 ∧
    ¬((getFileDisplayText "#task" (some c6LongContent) "/w/notes.md").length ≤ 50) := by
  decide

/-- C6 amended: a label derived from file content is at most 53 characters
(lines longer than 50 characters are cut to their first 50 characters and
a three-character `...` is appended, so the bound is 53, not 50); a label
taken from the filename in the single-marker-line case is bounded only by
the cleaned filename's length. -/
theorem c6_label_length_bound (primaryHashtag : String) (readResult : Option String)
    (filePath : String) :
    (getFileDisplayText primaryHashtag readResult filePath).length ≤
      max 53 (String.mk ((basenameNoMd filePath).data.dropWhile
        (fun c => c.isDigit || c == '_'))).length := by
  unfold getFileDisplayText
  cases readResult with
  | none =>
    refine le_trans ?_ (le_max_left 53 _)
    show ("(unable to read file)").length ≤ 53
    decide
  | some content =>
    simp only []
    split_ifs with hspec
    · exact le_max_right _ _
    · cases hne : (splitLines content.data).filter (fun ln => (trimChars ln).length > 0) with
      | nil =>
        refine le_trans ?_ (le_max_left 53 _)
        show ("(blank file)").length ≤ 53
        decide
      | cons firstNonBlank restLines =>
        simp only []
        refine le_trans ?_ (le_max_left 53 _)
        split_ifs with hlong
        · rw [String.length_append]
          have h50 : ((trimChars (collapseWs (removeTagTokens (tagAlts primaryHashtag)
              (stripLeadingHashes (trimChars firstNonBlank))))).take 50).length = 50 := by
            rw [List.length_take]
            omega
          show ((trimChars (collapseWs (removeTagTokens (tagAlts primaryHashtag)
              (stripLeadingHashes (trimChars firstNonBlank))))).take 50).length +
            ("...").length ≤ 53
          rw [h50]
          decide
        · show (trimChars (collapseWs (removeTagTokens (tagAlts primaryHashtag)
              (stripLeadingHashes (trimChars firstNonBlank))))).length ≤ 53
          omega

theorem civilDayDiff_eq (now taskDate : JSDate) :
    civilDayDiff now taskDate = taskDate.day - now.day := by
  unfold civilDayDiff JSDate.getTime
  have h : taskDate.day * msPerDay + 0 - (now.day * msPerDay + 0) =
      (taskDate.day - now.day) * msPerDay := by ring
  rw [h, Int.mul_ediv_cancel]
  decide

/-- C3: on an item set with due-days at yesterday, today, today+1, today+3,
today+4 and the sentinel, the DueSoon filter keeps exactly the first four
(all overdue items plus everything inside the end-of-day-inclusive
three-day window) and drops the today+4 item and the sentinel item. -/
theorem c3_due_soon_window (now : JSDate) (ty t0 t1 t3 t4 ts : TaskFile)
    (hy : ty.timestamp.day = now.day - 1) (hyw : ty.timestamp.WF)
    (h0 : t0.timestamp.day = now.day) (h0w : t0.timestamp.WF)
    (h1 : t1.timestamp.day = now.day + 1) (h1w : t1.timestamp.WF)
    (h3 : t3.timestamp.day = now.day + 3) (h3w : t3.timestamp.WF)
    (h4 : t4.timestamp.day = now.day + 4) (h4w : t4.timestamp.WF)
    (hs : ts.timestamp = sentinelDate)
    (hnow : now.day + 3 < sentinelDate.day) :
    filterDueSoon now [ty, t0, t1, t3, t4, ts] = [ty, t0, t1, t3] := by
  have hsday : sentinelDate.day = 29220 := by decide
  have hsofs : sentinelDate.ofs = 43200000 := by decide
  rw [hsday] at hnow
  obtain ⟨hya, hyb⟩ := hyw
  obtain ⟨h0a, h0b⟩ := h0w
  obtain ⟨h1a, h1b⟩ := h1w
  obtain ⟨h3a, h3b⟩ := h3w
  obtain ⟨h4a, h4b⟩ := h4w
  have bty : jsDateLe ty.timestamp (threeDaysFromNow now) = true := by
    simp only [jsDateLe, decide_eq_true_eq, JSDate.getTime, threeDaysFromNow, hy]
    unfold msPerDay at *
    omega
  have b0 : jsDateLe t0.timestamp (threeDaysFromNow now) = true := by
    simp only [jsDateLe, decide_eq_true_eq, JSDate.getTime, threeDaysFromNow, h0]
    unfold msPerDay at *
    omega
  have b1 : jsDateLe t1.timestamp (threeDaysFromNow now) = true := by
    simp only [jsDateLe, decide_eq_true_eq, JSDate.getTime, threeDaysFromNow, h1]
    unfold msPerDay at *
    omega
  have b3 : jsDateLe t3.timestamp (threeDaysFromNow now) = true := by
    simp only [jsDateLe, decide_eq_true_eq, JSDate.getTime, threeDaysFromNow, h3]
    unfold msPerDay at *
    omega
  have b4 : jsDateLe t4.timestamp (threeDaysFromNow now) = false := by
    simp only [jsDateLe, decide_eq_false_iff_not, not_le, JSDate.getTime, threeDaysFromNow, h4]
    unfold msPerDay at *
    omega
  have bs : jsDateLe ts.timestamp (threeDaysFromNow now) = false := by
    simp only [jsDateLe, decide_eq_false_iff_not, not_le, JSDate.getTime, threeDaysFromNow,
      hs, hsday, hsofs]
    unfold msPerDay at *
    omega
  unfold filterDueSoon
  simp only [List.filter_cons, List.filter_nil, bty, b0, b1, b3, b4, bs, if_true, if_false]
  simp

/-- Witness for C3 at a concrete evaluation day and six concrete items. -/
theorem c3_due_soon_window_witness :
    filterDueSoon ⟨20300, 3600000⟩
      [⟨"/w/y.md", "y.md", ⟨20299, 100⟩, "[x]", Priority.p1, false⟩,
       ⟨"/w/t0.md", "t0.md", ⟨20300, 50000000⟩, "[x]", Priority.p1, false⟩,
       ⟨"/w/t1.md", "t1.md", ⟨20301, 0⟩, "[x]", Priority.p2, false⟩,
       ⟨"/w/t3.md", "t3.md", ⟨20303, 86399999⟩, "[x]", Priority.p3, false⟩,
       ⟨"/w/t4.md", "t4.md", ⟨20304, 0⟩, "[x]", Priority.p1, false⟩,
       ⟨"/w/ts.md", "ts.md", sentinelDate, "[01/01/2050 12:00:00 PM]", Priority.p1, false⟩] =
      [⟨"/w/y.md", "y.md", ⟨20299, 100⟩, "[x]", Priority.p1, false⟩,
       ⟨"/w/t0.md", "t0.md", ⟨20300, 50000000⟩, "[x]", Priority.p1, false⟩,
       ⟨"/w/t1.md", "t1.md", ⟨20301, 0⟩, "[x]", Priority.p2, false⟩,
       ⟨"/w/t3.md", "t3.md", ⟨20303, 86399999⟩, "[x]", Priority.p3, false⟩] :=
  c3_due_soon_window ⟨20300, 3600000⟩ _ _ _ _ _ _
    (by decide) (by decide) (by decide) (by decide) (by decide) (by decide)
    (by decide) (by decide) (by decide) (by decide) rfl (by decide)

theorem mem_of_mem_sortByTimestamp {tf : TaskFile} {l : List TaskFile}
    (h : tf ∈ sortByTimestamp l) : tf ∈ l :=
  (List.perm_insertionSort byTimeLe l).subset h

theorem mem_of_mem_filterPriority {pf : String} {tf : TaskFile} {l : List TaskFile}
    (h : tf ∈ filterPriority pf l) : tf ∈ l := by
  unfold filterPriority at h
  split_ifs at h
  · exact List.mem_of_mem_filter h
  · exact h

/-- C7: the Overdue temporal filter keeps exactly the items whose
due-instant is strictly before the current instant, and every record the
Overdue pipeline renders carries the warning marker `⚠️` straight after
its icon. -/
theorem c7_overdue_strict_and_warns (cfg : Config) (currentPriorityFilter : String)
    (read : String → Option String) (now : JSDate) (data : List TaskFile) :
    (∀ tf : TaskFile, tf ∈ filterOverdue now data ↔
      tf ∈ data ∧ tf.timestamp.getTime < now.getTime) ∧
    (∀ rec ∈ buildDisplayScan cfg currentPriorityFilter read false true now data,
      ∃ pre post, rec.label = pre ++ "⚠️ " ++ post) := by
  constructor
  · intro tf
    simp [filterOverdue, List.mem_filter, jsDateLt]
  · intro rec hrec
    unfold buildDisplayScan at hrec
    rw [List.mem_map] at hrec
    obtain ⟨tf, htf, hrender⟩ := hrec
    have h2 : tf ∈ filterTemporalFlags false true now data :=
      mem_of_mem_filterPriority (mem_of_mem_sortByTimestamp htf)
    have h3 : jsDateLt tf.timestamp now = true := by
      have heq : filterTemporalFlags false true now data = filterOverdue now data := rfl
      rw [heq] at h2
      exact (List.mem_filter.mp h2).2
    rw [← hrender]
    unfold renderItem
    simp only [h3, if_true]
    simp only [String.append_assoc]
    exact ⟨_, _, rfl⟩

/-- Witness for C7: the warning-marker component applied to the one record
rendered from a concrete overdue item. -/
theorem c7_overdue_strict_and_warns_witness :
    ∃ pre post,
      (renderItem "#task" (fun _ => none) ⟨20300, 0⟩
        ⟨"/w/o.md", "o.md", ⟨20299, 0⟩, "[x]", Priority.p1, false⟩).label =
        pre ++ "⚠️ " ++ post :=
  (c7_overdue_strict_and_warns ⟨"#task", [], CompletionFilter.notCompleted⟩ "all"
      (fun _ => none) ⟨20300, 0⟩
      [⟨"/w/o.md", "o.md", ⟨20299, 0⟩, "[x]", Priority.p1, false⟩]).2
    (renderItem "#task" (fun _ => none) ⟨20300, 0⟩
      ⟨"/w/o.md", "o.md", ⟨20299, 0⟩, "[x]", Priority.p1, false⟩)
    (by decide)

instance : IsTotal TaskFile byTimeLe :=
  ⟨fun a b => le_total a.timestamp.getTime b.timestamp.getTime⟩

instance : IsTrans TaskFile byTimeLe := ⟨fun _ _ _ hab hbc => le_trans hab hbc⟩

theorem orderedInsert_filter_key (x : TaskFile) (l : List TaskFile) (t : Int) :
    (l.orderedInsert byTimeLe x).filter (fun tf => tf.timestamp.getTime == t) =
      ((x :: l).filter (fun tf => tf.timestamp.getTime == t)) := by
  induction l with
  | nil => rfl
  | cons y ys ih =>
    simp only [List.orderedInsert]
    split_ifs with hr
    · rfl
    · simp only [List.filter_cons, ih]
      by_cases hy : (y.timestamp.getTime == t) = true <;>
        by_cases hx : (x.timestamp.getTime == t) = true
      · exfalso
        unfold byTimeLe at hr
        rw [beq_iff_eq] at hy hx
        omega
      · simp [hy, hx]
      · simp [hy, hx]
      · simp [hy, hx]

theorem sortByTimestamp_filter_key (l : List TaskFile) (t : Int) :
    (sortByTimestamp l).filter (fun tf => tf.timestamp.getTime == t) =
      l.filter (fun tf => tf.timestamp.getTime == t) := by
  induction l with
  | nil => rfl
  | cons x xs ih =>
    show ((xs.insertionSort byTimeLe).orderedInsert byTimeLe x).filter _ = _
    rw [orderedInsert_filter_key]
    simp only [List.filter_cons]
    by_cases hx : (x.timestamp.getTime == t) = true
    · simp only [hx, if_true]
      rw [show (xs.insertionSort byTimeLe).filter (fun tf => tf.timestamp.getTime == t) =
        xs.filter (fun tf => tf.timestamp.getTime == t) from ih]
    · simp only [hx, if_false]
      exact ih

/-- Lexicographic order on character lists, the order JavaScript's `<` puts
on these ASCII paths; used only to state the tie-breaking claim. -/
def listLexLt : List Char → List Char → Bool
  | [], [] => false
  | [], _ :: _ => true
  | _ :: _, [] => false
  | a :: as, b :: bs =>
    if a.toNat < b.toNat then true
    else if b.toNat < a.toNat then false
    else listLexLt as bs

/-- C4 counterexample: two items with equal due-instants whose scan order
is `b.md` before `a.md` stay in that order in the rendered list, so
equal-instant items are not ordered by path. -/
theorem c4_ties_not_by_path_counterexample :
    (buildDisplayScan ⟨"#task", [], CompletionFilter.all⟩ "all" (fun _ => none) false false
        ⟨19990, 0⟩
        [⟨"/w/b.md", "b.md", ⟨20000, 0⟩, "[x]", Priority.p1, false⟩,
         ⟨"/w/a.md", "a.md", ⟨20000, 0⟩, "[x]", Priority.p1, false⟩]).map
      (fun rec => rec.path) = ["/w/b.md", "/w/a.md"] ∧
    listLexLt "/w/a.md".data "/w/b.md".data = true ∧
    ((⟨20000, 0⟩ : JSDate) = (⟨20000, 0⟩ : JSDate)) := by
  refine ⟨by decide, by decide, rfl⟩

/-- C4 amended: the displayed list is sorted ascending by due-instant (so
every item dated before the sentinel precedes every sentinel-dated item),
it is a permutation of the filtered input, and items with equal
due-instants keep the input (scan) order — the stable-sort guarantee — not
path order. -/
theorem c4_sorted_ascending_stable (l : List TaskFile) :
    List.Sorted byTimeLe (sortByTimestamp l) ∧ (sortByTimestamp l).Perm l ∧
    (∀ t : Int, (sortByTimestamp l).filter (fun tf => tf.timestamp.getTime == t) =
      l.filter (fun tf => tf.timestamp.getTime == t)) :=
  ⟨List.sorted_insertionSort byTimeLe l, List.perm_insertionSort byTimeLe l,
    sortByTimestamp_filter_key l⟩

/-- Priority colour icons (model.ts lines 1206, 1216–1219). -/
def priorityIcon : Priority → String
  | .p1 => "🔴"
  | .p2 => "🟠"
  | .p3 => "🔵"

/-- C8 counterexample: a completed item carrying the sentinel instant is
far future at the concrete evaluation day, yet its icon is the completed
check mark, not the far-future icon the claim's precedence predicts. -/
theorem c8_icon_precedence_counterexample :
    isFarFuture ⟨20300, 0⟩ sentinelDate = true ∧
    strStartsWith (renderItem "#task" (fun _ => none) ⟨20300, 0⟩
      ⟨"/w/d.md", "d.md", sentinelDate, "[01/01/2050 12:00:00 PM]", Priority.p1, true⟩).label
      "✅" = true ∧
    strStartsWith (renderItem "#task" (fun _ => none) ⟨20300, 0⟩
      ⟨"/w/d.md", "d.md", sentinelDate, "[01/01/2050 12:00:00 PM]", Priority.p1, true⟩).label
      "⚪" = false := by
  refine ⟨by decide, by decide, by decide⟩

/-- C8 amended: the icon selector is the priority colour, overridden by the
far-future icon when the due-day is more than 365 days out, overridden in
turn by the completed check mark (completion wins over far future, the
reverse of the claimed precedence); the sentinel instant counts as far
future whenever the evaluation day lies more than 365 days before it. -/
theorem c8_icon_precedence (primaryHashtag : String) (read : String → Option String)
    (now : JSDate) (tf : TaskFile) :
    (tf.isCompleted = true →
      ∃ rest, (renderItem primaryHashtag read now tf).label = "✅" ++ rest) ∧
    (tf.isCompleted = false → isFarFuture now tf.timestamp = true →
      ∃ rest, (renderItem primaryHashtag read now tf).label = "⚪" ++ rest) ∧
    (tf.isCompleted = false → isFarFuture now tf.timestamp = false →
      ∃ rest, (renderItem primaryHashtag read now tf).label = priorityIcon tf.priority ++ rest) ∧
    (tf.timestamp = sentinelDate → now.day + 365 < sentinelDate.day →
      isFarFuture now tf.timestamp = true) := by
  refine ⟨?_, ?_, ?_, ?_⟩
  · intro hc
    unfold renderItem
    simp only [hc, if_true]
    split_ifs <;> (simp only [String.append_assoc]; exact ⟨_, rfl⟩)
  · intro hc hf
    unfold renderItem
    simp only [hc, hf, if_true, if_false, Bool.false_eq_true]
    split_ifs <;> (simp only [String.append_assoc]; exact ⟨_, rfl⟩)
  · intro hc hf
    unfold renderItem
    simp only [hc, hf, if_true, if_false, Bool.false_eq_true]
    cases hp : tf.priority <;>
      (simp only [hp, priorityIcon]
       split_ifs <;> (simp only [String.append_assoc]; exact ⟨_, rfl⟩))
  · intro hsent hday
    rw [hsent]
    unfold isFarFuture
    rw [civilDayDiff_eq]
    simp only [decide_eq_true_eq]
    omega

/-- Witness for C8: a completed sentinel-dated item rendered at a concrete
day gets the completed icon. -/
theorem c8_icon_precedence_witness :
    ∃ rest, (renderItem "#task" (fun _ => none) ⟨20300, 0⟩
      ⟨"/w/d.md", "d.md", sentinelDate, "[01/01/2050 12:00:00 PM]", Priority.p1, true⟩).label =
      "✅" ++ rest :=
  (c8_icon_precedence "#task" (fun _ => none) ⟨20300, 0⟩
    ⟨"/w/d.md", "d.md", sentinelDate, "[01/01/2050 12:00:00 PM]", Priority.p1, true⟩).1 rfl

theorem split_q_label (icon sep text : String) :
    icon ++ sep ++ "(" ++ "?" ++ ")" ++ " " ++ text =
      (icon ++ sep) ++ "(?)" ++ (" " ++ text) := by
  rw [show ("(?)" : String) = ("(" ++ "?") ++ ")" from by decide]
  simp only [String.append_assoc]

/-- C10: every item whose due-instant lies in calendar year 2050 or later
renders the unknown day marker `(?)` and is classified as having no real
timestamp: its context value is never `taskWithTimestamp`. -/
theorem c10_far_year_unknown_marker (primaryHashtag : String)
    (read : String → Option String) (now : JSDate) (tf : TaskFile)
    (h : 2050 ≤ tf.timestamp.getFullYear) :
    getDaysDifference now tf.timestamp = none ∧
    (∃ pre post, (renderItem primaryHashtag read now tf).label = pre ++ "(?)" ++ post) ∧
    (renderItem primaryHashtag read now tf).contextValue ≠ "taskWithTimestamp" ∧
    ((renderItem primaryHashtag read now tf).contextValue = "farFutureTask" ∨
     (renderItem primaryHashtag read now tf).contextValue = "taskWithoutTimestamp") := by
  have hdd : getDaysDifference now tf.timestamp = none := by
    unfold getDaysDifference
    rw [if_pos h]
  have hreal : decide (tf.timestamp.getFullYear < 2050) = false := by
    simp only [decide_eq_false_iff_not, not_lt]
    exact h
  refine ⟨hdd, ?_, ?_, ?_⟩
  · unfold renderItem
    simp only [hdd]
    split_ifs <;> exact ⟨_, _, split_q_label _ _ _⟩
  · unfold renderItem
    simp only [hreal, Bool.not_false, Bool.and_true]
    split_ifs <;> first | decide | simp_all
  · unfold renderItem
    simp only [hreal, Bool.not_false, Bool.and_true]
    split_ifs <;> first | (left; rfl) | (right; rfl) | simp_all

/-- An item whose timestamp was parsed from the genuine user-written token
`[01/01/2051]` (not the sentinel). -/
def c10Task : TaskFile :=
  ⟨"/w/far.md", "far.md", (parseTimestamp "[01/01/2051]").getD ⟨0, 0⟩, "[01/01/2051]",
    Priority.p1, false⟩

/-- Witness for C10 at the item parsed from `[01/01/2051]`. -/
theorem c10_far_year_unknown_marker_witness :
    getDaysDifference ⟨20300, 0⟩ c10Task.timestamp = none ∧
    (∃ pre post, (renderItem "#task" (fun _ => none) ⟨20300, 0⟩ c10Task).label =
      pre ++ "(?)" ++ post) ∧
    (renderItem "#task" (fun _ => none) ⟨20300, 0⟩ c10Task).contextValue ≠
      "taskWithTimestamp" ∧
    ((renderItem "#task" (fun _ => none) ⟨20300, 0⟩ c10Task).contextValue = "farFutureTask" ∨
     (renderItem "#task" (fun _ => none) ⟨20300, 0⟩ c10Task).contextValue =
       "taskWithoutTimestamp") :=
  c10_far_year_unknown_marker "#task" (fun _ => none) ⟨20300, 0⟩ c10Task (by decide)

mutual

/-- Well-formedness of an abstract file tree: file names contain no `/`
(true of every real directory entry), so `path.basename` of the joined
path gives the entry name back. -/
def fsFileNamesOk : FSNode → Bool
  | .file name _ => name.data.all (fun c => !(c == '/'))
  | .dir _ children => fsForestFileNamesOk children

/-- Forest version of `fsFileNamesOk`. -/
def fsForestFileNamesOk : List FSNode → Bool
  | [] => true
  | node :: rest => fsFileNamesOk node && fsForestFileNamesOk rest

end

theorem takeWhile_append_stop {p : Char → Bool} {l1 l2 : List Char} {c0 : Char}
    (h1 : ∀ c ∈ l1, p c = true) (h2 : p c0 = false) :
    (l1 ++ c0 :: l2).takeWhile p = l1 := by
  induction l1 with
  | nil => simp [List.takeWhile_cons, h2]
  | cons a as ih =>
    have ha : p a = true := h1 a (by simp)
    simp only [List.cons_append, List.takeWhile_cons, ha, if_true]
    rw [ih (fun c hc => h1 c (by simp [hc]))]

theorem basename_append (dirPath name : String)
    (h : name.data.all (fun c => !(c == '/')) = true) :
    basename (dirPath ++ "/" ++ name) = name := by
  unfold basename
  have hdata : (dirPath ++ "/" ++ name).data = dirPath.data ++ ('/' :: name.data) := by
    simp only [String.data_append]
    simp
  rw [hdata, List.reverse_append, List.reverse_cons, List.append_assoc,
    List.singleton_append]
  rw [takeWhile_append_stop (fun c hc => List.all_eq_true.mp h c (List.mem_reverse.mp hc))
    (by decide)]
  rw [List.reverse_reverse]

theorem scanFileClassify_shape (cfg : Config) (filePath content : String) (tf : TaskFile)
    (h : scanFileClassify cfg filePath content = some tf) :
    tf.filePath = filePath ∧ tf.fileName = basename filePath := by
  unfold scanFileClassify at h
  simp only [] at h
  split_ifs at h
  rw [Option.some_inj] at h
  subst h
  exact ⟨rfl, rfl⟩

theorem isTaskFile_not_hidden (name : String) (h : isTaskFile name = true) :
    strStartsWith name "_" = false ∧ strStartsWith name "." = false := by
  unfold isTaskFile at h
  split_ifs at h with hcond
  simp only [Bool.or_eq_true, not_or, Bool.not_eq_true] at hcond
  exact hcond

theorem scanEntriesFuel_no_hidden (cfg : Config) :
    ∀ (fuel : Nat) (dirPath : String) (entries : List FSNode) (seen : List String),
      fsForestFileNamesOk entries = true →
      ∀ tf ∈ (scanEntriesFuel cfg fuel dirPath entries seen).1,
        strStartsWith tf.fileName "_" = false ∧ strStartsWith tf.fileName "." = false ∧
        tf.fileName = basename tf.filePath := by
  intro fuel
  induction fuel with
  | zero =>
    intro dirPath entries seen hok tf htf
    simp [scanEntriesFuel] at htf
  | succ fuel ih =>
    intro dirPath entries seen hok tf htf
    cases entries with
    | nil => simp [scanEntriesFuel] at htf
    | cons node rest =>
      cases node with
      | file name content =>
        rw [fsForestFileNamesOk] at hok
        rw [Bool.and_eq_true] at hok
        obtain ⟨hok1, hokRest⟩ := hok
        rw [fsFileNamesOk] at hok1
        rw [scanEntriesFuel] at htf
        by_cases htask : isTaskFile name = true
        · rw [if_pos htask] at htf
          by_cases hseen : seen.contains (dirPath ++ "/" ++ name) = true
          · rw [if_pos hseen] at htf
            exact ih dirPath rest seen hokRest tf htf
          · rw [if_neg hseen] at htf
            cases hcl : scanFileClassify cfg (dirPath ++ "/" ++ name) content with
            | none =>
              rw [hcl] at htf
              exact ih dirPath rest _ hokRest tf htf
            | some taskFile =>
              rw [hcl] at htf
              rcases hE : scanEntriesFuel cfg fuel dirPath rest
                ((dirPath ++ "/" ++ name) :: seen) with ⟨found, seenOut⟩
              rw [hE] at htf
              simp only [List.mem_cons] at htf
              cases htf with
              | inl heq =>
                subst heq
                obtain ⟨hfp, hfn⟩ := scanFileClassify_shape cfg _ content tf hcl
                have hbn : basename (dirPath ++ "/" ++ name) = name :=
                  basename_append dirPath name hok1
                rw [hfn, hbn, hfp, hbn]
                obtain ⟨hu, hd⟩ := isTaskFile_not_hidden name htask
                exact ⟨hu, hd, rfl⟩
              | inr hmem =>
                have : tf ∈ (scanEntriesFuel cfg fuel dirPath rest
                    ((dirPath ++ "/" ++ name) :: seen)).1 := by
                  rw [hE]
                  exact hmem
                exact ih dirPath rest _ hokRest tf this
        · rw [if_neg htask] at htf
          exact ih dirPath rest seen hokRest tf htf
      | dir name children =>
        rw [fsForestFileNamesOk] at hok
        rw [Bool.and_eq_true] at hok
        obtain ⟨hok1, hokRest⟩ := hok
        rw [fsFileNamesOk] at hok1
        rw [scanEntriesFuel] at htf
        by_cases hskip : shouldSkipDirectory name = true
        · rw [if_pos hskip] at htf
          exact ih dirPath rest seen hokRest tf htf
        · rw [if_neg hskip] at htf
          rcases hE1 : scanEntriesFuel cfg fuel (dirPath ++ "/" ++ name) children seen with
            ⟨ts1, seen1⟩
          rw [hE1] at htf
          dsimp only at htf
          rcases hE2 : scanEntriesFuel cfg fuel dirPath rest seen1 with ⟨ts2, seen2⟩
          rw [hE2] at htf
          simp only [List.mem_append] at htf
          cases htf with
          | inl h1 =>
            have : tf ∈ (scanEntriesFuel cfg fuel (dirPath ++ "/" ++ name) children seen).1 := by
              rw [hE1]
              exact h1
            exact ih (dirPath ++ "/" ++ name) children seen hok1 tf this
          | inr h2 =>
            have : tf ∈ (scanEntriesFuel cfg fuel dirPath rest seen1).1 := by
              rw [hE2]
              exact h2
            exact ih dirPath rest seen1 hokRest tf this

theorem mem_of_mem_filterTemporalFlags {ds od : Bool} {now : JSDate} {tf : TaskFile}
    {data : List TaskFile} (h : tf ∈ filterTemporalFlags ds od now data) : tf ∈ data := by
  unfold filterTemporalFlags filterDueSoon filterOverdue at h
  split_ifs at h
  · exact List.mem_of_mem_filter h
  · exact List.mem_of_mem_filter h
  · exact h

/-- C9: a file whose base name begins with an underscore or a period is
never turned into an Item by the Workspace Scanner — whatever its
extension or content — and consequently appears in no filtered display
list. -/
theorem c9_underscore_dot_files_excluded (cfg : Config) (rootPath : String) (rootEntries : List FSNode)
    (hok : fsForestFileNamesOk rootEntries = true) :
    (∀ tf ∈ scanForTaskFilesData cfg rootPath rootEntries,
      strStartsWith tf.fileName "_" = false ∧ strStartsWith tf.fileName "." = false) ∧
    (∀ (currentPriorityFilter : String) (read : String → Option String)
        (dueSoonOnly overdueOnly : Bool) (now : JSDate),
      ∀ rec ∈ buildDisplayScan cfg currentPriorityFilter read dueSoonOnly overdueOnly now
          (scanForTaskFilesData cfg rootPath rootEntries),
        strStartsWith (basename rec.path) "_" = false ∧
        strStartsWith (basename rec.path) "." = false) := by
  have hmain := scanEntriesFuel_no_hidden cfg (fsForestSize rootEntries) rootPath rootEntries
    [] hok
  constructor
  · intro tf htf
    have hP := hmain tf htf
    exact ⟨hP.1, hP.2.1⟩
  · intro pf read ds od now rec hrec
    unfold buildDisplayScan at hrec
    rw [List.mem_map] at hrec
    obtain ⟨tf, htf, hrender⟩ := hrec
    have htf2 : tf ∈ scanForTaskFilesData cfg rootPath rootEntries :=
      mem_of_mem_filterTemporalFlags (mem_of_mem_filterPriority (mem_of_mem_sortByTimestamp htf))
    have hP := hmain tf htf2
    have hpath : rec.path = tf.filePath := by
      rw [← hrender]
      rfl
    rw [hpath, ← hP.2.2]
    exact ⟨hP.1, hP.2.1⟩

/-- Witness for C9: on a concrete tree holding `_h.md` (tagged) and
`ok.md`, the scanner's one produced item has a base name starting with
neither `_` nor `.`. -/
theorem c9_underscore_dot_files_excluded_witness :
    strStartsWith (⟨"/w/ok.md", "ok.md", ⟨20455, 43200000⟩, "[01/02/2026]", Priority.p1, false⟩ :
      TaskFile).fileName "_" = false ∧
    strStartsWith (⟨"/w/ok.md", "ok.md", ⟨20455, 43200000⟩, "[01/02/2026]", Priority.p1, false⟩ :
      TaskFile).fileName "." = false :=
  (c9_underscore_dot_files_excluded ⟨"#task", [], CompletionFilter.notCompleted⟩ "/w"
      [FSNode.file "_h.md" "#task", FSNode.file "ok.md" "#task [01/02/2026]"]
      (by decide)).1
    ⟨"/w/ok.md", "ok.md", ⟨20455, 43200000⟩, "[01/02/2026]", Priority.p1, false⟩
    (by decide)

/-- Configuration with the default NotCompleted completion filter. -/
def c1Cfg : Config := ⟨"#task", ["#task", "#todo", "#note"], CompletionFilter.notCompleted⟩

/-- A file that carries the active tag and the completion marker. -/
def c1Content : String := "#task #done [01/01/2030]"

/-- Filesystem with the single task file. -/
def c1Read : String → Option String := fun p => if p == "/w/t.md" then some c1Content else none

/-- The parsed due-instant of the C1 file. -/
def c1Ts : JSDate := (parseTimestamp "[01/01/2030]").getD ⟨0, 0⟩

/-- The indexed item as it stood before the edit added the marker. -/
def c1OldTask : TaskFile := ⟨"/w/t.md", "t.md", c1Ts, "[01/01/2030]", Priority.p1, false⟩

/-- The replacement item the incremental update produces. -/
def c1NewTask : TaskFile := ⟨"/w/t.md", "t.md", c1Ts, "[01/01/2030]", Priority.p1, true⟩

/-- C1 counterexample: with the completion filter at its NotCompleted
default and a tracked file whose content now carries `#done`, the
incremental update still lists the file (its display record exists) while
a full rescan of the same content excludes it — `rebuildTaskDisplay`
applies no completion filter, `scanFile` does.  Inclusion in the list, a
part of the display record the claim names, therefore differs. -/
theorem c1_completion_filter_counterexample :
    updateSingleTaskData [c1OldTask] c1Read "/w/t.md" "[01/01/2030]" = some [c1NewTask] ∧
    (rebuildTaskDisplay c1Cfg "All" "all" c1Read ⟨20300, 0⟩ [c1NewTask]).map
      (fun rec => rec.path) = ["/w/t.md"] ∧
    scanFileClassify c1Cfg "/w/t.md" c1Content = none := by
  refine ⟨by decide, by decide, by decide⟩

/-- C1 amended: when the completion filter is Any (`all`) — the one axis
the incremental path never filters on — and the file still carries the
active tag, the replacement item the Incremental Updater installs is
exactly the item the full rescan's classifier produces for the same
content (same path, label source, timestamp, raw token, priority,
completion), so the shared renderer yields the identical display record;
under Completed/NotCompleted the equivalence fails as the counterexample
shows. -/
theorem c1_incremental_matches_rescan (cfg : Config) (read : String → Option String)
    (data : List TaskFile) (filePath newTimestampString content : String) (i : Nat)
    (oldTask : TaskFile) (t : JSDate)
    (hidx : data.findIdx? (fun task => task.filePath == filePath) = some i)
    (hget : data.get? i = some oldTask)
    (hpath : oldTask.filePath = filePath)
    (hname : oldTask.fileName = basename filePath)
    (hread : read filePath = some content)
    (hcomp : cfg.completionFilter = CompletionFilter.all)
    (htag : hasActiveTag cfg content = true)
    (hfind : findTimestamp content = some newTimestampString)
    (hparse : parseTimestamp newTimestampString = some t) :
    ∃ newTask : TaskFile,
      updateSingleTaskData data read filePath newTimestampString = some (data.set i newTask) ∧
      scanFileClassify cfg filePath content = some newTask := by
  refine ⟨⟨oldTask.filePath, oldTask.fileName, t, newTimestampString,
    detectPriority content, strContains content "#done"⟩, ?_, ?_⟩
  · unfold updateSingleTaskData
    rw [hidx, hparse, hread]
    dsimp only
    rw [hget]
  · unfold scanFileClassify
    simp only [htag, hcomp, hfind, hparse, Bool.true_and, if_true, Option.getD_some]
    rw [hpath, hname]

/-- Witness content: active tag, timestamp token and a priority marker. -/
def c1wContent : String := "#task [01/02/2026] #p2"

/-- Witness filesystem. -/
def c1wRead : String → Option String :=
  fun p => if p == "/w/u.md" then some c1wContent else none

/-- Witness prior item (stale timestamp about to be replaced). -/
def c1wOld : TaskFile := ⟨"/w/u.md", "u.md", ⟨0, 0⟩, "[x]", Priority.p1, false⟩

/-- Witness for C1 at a concrete one-item index and file content. -/
theorem c1_incremental_matches_rescan_witness :
    ∃ newTask : TaskFile,
      updateSingleTaskData [c1wOld] c1wRead "/w/u.md" "[01/02/2026]" =
        some ([c1wOld].set 0 newTask) ∧
      scanFileClassify ⟨"#task", ["#task", "#todo", "#note"], CompletionFilter.all⟩
        "/w/u.md" c1wContent = some newTask :=
  c1_incremental_matches_rescan ⟨"#task", ["#task", "#todo", "#note"], CompletionFilter.all⟩ c1wRead
    [c1wOld] "/w/u.md" "[01/02/2026]" c1wContent 0 c1wOld ⟨20455, 43200000⟩
    (by decide) (by decide) rfl (by decide) (by decide) rfl (by decide) (by decide) (by decide)
